import Mathlib

/-
Verification of the Linux-File-Librarian ingestion pipeline.

Shallow embedding of the components named by the claims:
  - src/resource_manager.py  (ResourceManager.get_safe_worker_count)
  - src/classifier.py        (Classifier.classify and its tiers)
  - src/librarian.py         (validate_and_repair_pdf, scan_files)
  - src/library_builder.py   (scan_files file_generator, deduplicate_files,
                              copy_and_index, build)

External effects (file system, subprocesses, native PDF parsers, the
knowledge database) are modelled as explicit oracle parameters; the
control flow and arithmetic of the Python functions are translated
directly.
-/

set_option autoImplicit false

namespace FileLibrarian

/-! ## Core data model

FileRecord mirrors the rows written to file_scan_batches.csv by
LibraryBuilder.scan_files (fields path, name, size). -/

structure FileRecord where
  path : String
  name : String
  size : Nat
deriving DecidableEq, Repr

/-- AnalysisResult as produced by analyze_row in library_builder.py.
Rows whose hash could not be computed are dropped by analyze_row
(it returns None and classify_and_analyze appends nothing), so every
retained analysis carries a concrete hash string. -/
structure Analysis where
  mime_type : String
  hash : String
  is_pdf_valid : Option Bool
  has_ocr : Option Bool
  game_system : Option String
  edition : Option String
  category : Option String
deriving DecidableEq, Repr

/-! ## ResourceManager (src/resource_manager.py)

get_safe_worker_count, lines 58-123.  The live memory readings
(get_available_ram_mb, get_total_ram_mb, _detect_memory_pressure) are
inputs here: avail and total are megabyte counts, pressure is the
boolean returned by _detect_memory_pressure.  The 30 second cache
(lines 62-65) only replays a previously computed value, and the
exception handler (lines 121-123) returns 1, so the fresh computation
below is the value source for every path. -/

/-- Line 75: usable_mb = max(0, avail_mb - os_reserved_mb - self.min_free_mb),
with os_reserved_mb hard coded to 512 at line 72.  Computed in Int so
that the non-negativity claim is about the real subtraction. -/
def usable_memory_mb (avail min_free : Nat) : Int :=
  max 0 ((avail : Int) - 512 - (min_free : Int))

/-- Lines 78-81: cap usable memory at 30 percent of total RAM.
int(total_mb * 0.3) is modelled as exact rational arithmetic followed
by truncation, that is 3 * total / 10 in Nat. -/
def capped_usable_mb (avail total min_free : Nat) : Nat :=
  min (usable_memory_mb avail min_free).toNat (3 * total / 10)

/-- Lines 96-99: while workers > 1 and (usable_mb / workers) < 400:
workers -= 1, followed by workers = max(1, workers).  The float
comparison usable / w < 400 is equivalent to usable < 400 * w. -/
def adjust_workers (usable : Nat) : Nat → Nat
  | 0 => 1
  | 1 => 1
  | n + 2 => if usable < 400 * (n + 2) then adjust_workers usable (n + 1) else n + 2

/-- ResourceManager.get_safe_worker_count, lines 67-119.
max_workers is self.max_workers, min_free is self.min_free_mb and
pressure is the result of self._detect_memory_pressure(). -/
def get_safe_worker_count (avail total max_workers min_free : Nat)
    (pressure : Bool) : Nat :=
  let usable := capped_usable_mb avail total min_free
  -- lines 85-99: the three sizing branches
  let workers1 :=
    if usable < 400 then 1
    else if usable < 800 then 1
    else adjust_workers usable (min max_workers (max 1 (usable / 400)))
  -- lines 102-105: memory pressure or avail_mb < 1000 forces one worker
  let workers2 := if pressure || avail < 1000 then 1 else workers1
  -- lines 108-110: avail_mb < 2000 forces one worker
  if avail < 2000 then 1 else workers2

/-! ## Classifier (src/classifier.py)

The knowledge cache is the pair of lookup structures built by
load_products_to_cache / load_path_keywords / load_alternate_keywords:
product_cache maps a normalized key to a (system, edition, category)
tuple and path_keywords maps a normalized keyword to a system name.
They are read-only inputs of classify, passed here as association
lists (python dicts with unique keys).  rapidfuzz.fuzz.partial_ratio
is an external library scorer, passed as the oracle fuzzy. -/

structure ClassTriple where
  system : Option String
  edition : Option String
  category : Option String
deriving DecidableEq, Repr

/-- Classifier.normalize_text, lines 78-86: lowercase, NFKD-decompose,
drop combining marks, keep only [a-z0-9].  NFKD decomposition and
combining-mark removal are the identity on the ASCII fragment modelled
by Char here; the final regex keeps exactly the lowercase letters and
digits. -/
def normalize_text (s : String) : String :=
  String.mk ((s.data.map Char.toLower).filter
    (fun c => ('a' ≤ c && c ≤ 'z') || ('0' ≤ c && c ≤ '9')))

/-- The python substring test (key in clean_filename) on char lists. -/
def contains_chars (needle : List Char) : List Char → Bool
  | [] => needle.isEmpty
  | c :: t => needle.isPrefixOf (c :: t) || contains_chars needle t

def contains_sub (needle hay : String) : Bool :=
  contains_chars needle.data hay.data

/-- Stable insertion for sorted(keys, key=len, reverse=True): a key is
placed before the first strictly shorter key, preserving the relative
order of keys of equal length. -/
def insert_by_len (k : String) : List String → List String
  | [] => [k]
  | x :: t => if x.length < k.length then k :: x :: t else x :: insert_by_len k t

def sort_by_len_desc : List String → List String
  | [] => []
  | k :: t => insert_by_len k (sort_by_len_desc t)

/-- Classifier._classify_by_filename, lines 88-96: exact substring
match against the cache keys, longest key first, then a fuzzy pass in
cache order with threshold 90. -/
def classify_by_filename (cache : List (String × ClassTriple))
    (fuzzy : String → String → Nat) (filename : String) : Option ClassTriple :=
  let clean := normalize_text filename
  match (sort_by_len_desc (cache.map Prod.fst)).find?
      (fun k => contains_sub k clean) with
  | some k => cache.lookup k
  | none =>
    match cache.find? (fun kv => 90 ≤ fuzzy clean kv.1) with
    | some kv => some kv.2
    | none => none

/-- Classifier._classify_by_path, lines 98-109: walk the directory
parts of the full path (all parts except the final file name) from the
innermost outwards; exact dictionary hit first, then a fuzzy pass over
the keyword keys.  The full path is passed already split into its
parts, as produced by pathlib Path(full_path).parts. -/
def classify_by_path (keywords : List (String × String))
    (fuzzy : String → String → Nat) (parts : List String) : Option ClassTriple :=
  if keywords.isEmpty then none
  else
    (parts.dropLast.reverse).findSome? (fun part =>
      let clean := normalize_text part
      match keywords.lookup clean with
      | some sys => some ⟨some sys, some "From Folder", some "Heuristic"⟩
      | none =>
        match keywords.find? (fun kv => 90 ≤ fuzzy clean kv.1) with
        | some kv => some ⟨some kv.2, some "From Folder", some "Heuristic"⟩
        | none => none)

/-- Classifier._classify_by_mimetype, lines 111-121.
mime_type.split(sep)[0] with sep "/" is the prefix before the first
slash. -/
def classify_by_mimetype (mime : String) : Option ClassTriple :=
  let major := String.mk (mime.data.takeWhile (fun c => c ≠ '/'))
  if major = "video" then some ⟨some "Media", some "Video", none⟩
  else if major = "audio" then some ⟨some "Media", some "Audio", none⟩
  else if major = "image" then some ⟨some "Media", some "Images", none⟩
  else if contains_sub "zip" mime || contains_sub "rar" mime || contains_sub "7z" mime then
    some ⟨some "Archives", none, none⟩
  else if contains_sub "pdf" mime then some ⟨some "Documents", some "PDF", none⟩
  else if contains_sub "msword" mime || contains_sub "officedocument" mime then
    some ⟨some "Documents", some "Office", none⟩
  else if major = "text" then some ⟨some "Documents", some "Text", none⟩
  else if contains_sub "application" mime then some ⟨some "Software & Data", none, none⟩
  else none

/-- Classifier.classify, lines 123-130: the tier chain with the
explicit Miscellaneous fallback.  Every tier returns a python tuple or
None, and a tuple is always truthy, so Option faithfully models the
`if result:` tests. -/
def classify (cache : List (String × ClassTriple)) (keywords : List (String × String))
    (fuzzy : String → String → Nat)
    (filename : String) (parts : List String) (mime : String) : ClassTriple :=
  match classify_by_filename cache fuzzy filename with
  | some r => r
  | none =>
    match classify_by_path keywords fuzzy parts with
    | some r => r
    | none =>
      match classify_by_mimetype mime with
      | some r => r
      | none => ⟨some "Miscellaneous", none, none⟩

/-! ## PDF validation and repair (src/librarian.py, validate_and_repair_pdf)

get_pdf_details is the validity check applied to originals; it returns
the tuple (is_valid, has_text, pdf_version, pdf_creator, pdf_producer).
validate_and_repair_pdf runs it under run_with_timeout, attempts
repair_pdf on failure, and re-runs the same get_pdf_details on the
repaired output before accepting it (librarian.py lines 718-764).

Oracles:
  - details p = none models a run_with_timeout failure or exception
    result for get_pdf_details on path p, and some d its tuple;
  - header_is_pdf models the 5 byte header probe at lines 733-743
    (none = unreadable, some b = header equals the PDF magic);
  - repair_run models run_with_timeout(repair_pdf, ...) at line 746
    (none = timeout, some b = the boolean repair_pdf returned). -/

structure PdfDetails where
  is_valid : Bool
  has_text : Bool
  version : Option String
  creator : Option String
  producer : Option String
deriving DecidableEq, Repr

structure VrResult where
  path : String
  is_valid : Bool
  has_text : Bool
  version : Option String
  creator : Option String
  producer : Option String
deriving DecidableEq, Repr

/-- librarian.validate_and_repair_pdf, lines 718-764.  Note that when
the repaired file fails re-validation, lines 754-764 return the
original path with the version metadata taken from the repaired
details (the unpacking at line 756 overwrites them before the validity
test). -/
def validate_and_repair_pdf (is_apple_double : Bool)
    (details : String → Option PdfDetails)
    (header_is_pdf : Option Bool) (repair_run : Option Bool)
    (file_path : String) : VrResult :=
  if is_apple_double then ⟨file_path, false, false, none, none, none⟩
  else
    match details file_path with
    | none => ⟨file_path, false, false, none, none, none⟩
    | some d =>
      if d.is_valid then ⟨file_path, true, d.has_text, d.version, d.creator, d.producer⟩
      else
        match header_is_pdf with
        | none => ⟨file_path, false, false, d.version, d.creator, d.producer⟩
        | some false => ⟨file_path, false, false, d.version, d.creator, d.producer⟩
        | some true =>
          match repair_run with
          | none => ⟨file_path, false, false, d.version, d.creator, d.producer⟩
          | some false => ⟨file_path, false, false, d.version, d.creator, d.producer⟩
          | some true =>
            match details (file_path ++ ".repaired.pdf") with
            | some rd =>
              if rd.is_valid then
                ⟨file_path ++ ".repaired.pdf", true, rd.has_text, rd.version, rd.creator, rd.producer⟩
              else ⟨file_path, false, false, rd.version, rd.creator, rd.producer⟩
            | none => ⟨file_path, false, false, d.version, d.creator, d.producer⟩

/-! ## Scanner (src/library_builder.py, scan_files file_generator, lines 282-318)

One directory entry seen by os.walk, with the outcomes of the probes
the generator performs on it:
  - path_exists: os.path.exists(fpath), which follows symlinks and is
    therefore False for a broken symlink;
  - is_link / link_target_exists: os.path.islink(fpath) and
    os.path.exists(os.readlink(fpath));
  - stat_ok / perm_denied: whether os.stat succeeded, and whether a
    failure was a permission error (used by the warning filter at
    line 313). -/

structure FileEntry where
  path : String
  name : String
  path_exists : Bool
  is_link : Bool
  link_target_exists : Bool
  stat_ok : Bool
  perm_denied : Bool
  size : Nat
deriving DecidableEq, Repr

/-- name.startswith of a single character prefix, on the char list so
that concrete scans evaluate inside the kernel. -/
def starts_with_dot (s : String) : Bool :=
  match s.data with
  | [] => false
  | c :: _ => c = '.'

/-- The per-file body of file_generator: the emitted record, if any,
and the warning lines printed for this entry. -/
def scan_entry (e : FileEntry) : Option FileRecord × List String :=
  if !e.path_exists then (none, [])
  else if e.is_link && !e.link_target_exists then (none, [])
  else if !e.stat_ok then
    (none, if e.is_link || e.perm_denied then []
           else ["Could not stat file " ++ e.name ++ ". Skipping."])
  else if e.size < 10 then (none, [])
  else if starts_with_dot e.name && e.name ≠ ".htaccess" && e.name ≠ ".gitignore" then
    (none, [])
  else (some ⟨e.path, e.name, e.size⟩, [])

/-- file_generator over the entries of one source root: the stream of
yielded records together with the warnings printed along the way. -/
def file_generator (es : List FileEntry) : List FileRecord × List String :=
  (es.filterMap (fun e => (scan_entry e).1),
   (es.map (fun e => (scan_entry e).2)).flatten)

/-- One configured source path: scan_files skips entries of
source_paths that are not directories (library_builder.py lines
322-325) and otherwise streams file_generator over the tree. -/
structure SourceRoot where
  is_dir : Bool
  entries : List FileEntry
deriving DecidableEq, Repr

/-- LibraryBuilder.scan_files, lines 265-358: concatenation of the
per-root generator streams, in configuration order. -/
def scan_files_phase (roots : List SourceRoot) : List FileRecord × List String :=
  ((roots.map (fun r => if r.is_dir then (file_generator r.entries).1 else [])).flatten,
   (roots.map (fun r => if r.is_dir then (file_generator r.entries).2 else [])).flatten)

/-! ## Deduplicator (src/library_builder.py, deduplicate_files, lines 588-708)

classify_and_analyze re-reads file_scan_batches.csv in order and
appends analyze_row(row) for each row, skipping rows for which
analyze_row returned None; so the analysis stream is
scanned.filterMap analyze.  deduplicate_files then re-reads the csv in
chunks of 1000 rows, pairs chunk i with analysis chunk i (both lists
chunked by 1000), truncates the pair to the shorter length
(lines 613-615), concatenates the columns (line 617), scores each
combined row (lines 627-642) and folds the rows into the best_files
dict keyed by hash (lines 646-653). -/

/-- A combined csv+analysis row with its quality score, the unit the
best_files dict stores. -/
structure Scored where
  path : String
  name : String
  size : Nat
  mime_type : String
  hash : String
  is_pdf_valid : Option Bool
  has_ocr : Option Bool
  game_system : Option String
  score : Nat
deriving DecidableEq, Repr

/-- Lines 627-642: has_ocr == True adds 4, is_pdf_valid == True adds 2,
size > min_pdf_size_bytes adds 1.  A None (NaN) column compares unequal
to True, contributing 0. -/
def quality_score (min_size : Nat) (has_ocr is_pdf_valid : Option Bool)
    (size : Nat) : Nat :=
  (if has_ocr == some true then 4 else 0) +
  (if is_pdf_valid == some true then 2 else 0) +
  (if min_size < size then 1 else 0)

/-- pd.concat([chunk, analysis_chunk], axis=1) on one positional pair
of rows: path, name and size come from the csv row, the remaining
columns from the analysis row. -/
def combine_row (min_size : Nat) (fr : FileRecord) (an : Analysis) : Scored :=
  ⟨fr.path, fr.name, fr.size, an.mime_type, an.hash, an.is_pdf_valid, an.has_ocr,
   an.game_system, quality_score min_size an.has_ocr an.is_pdf_valid fr.size⟩

/-- Fixed-size chunking of a stream (pd.read_csv chunksize and the
slicing analysis_results[i:i+1000]).  Fuel-structural so that concrete
evaluations reduce; the fuel is instantiated with the list length. -/
def chunks_of {α : Type} (n : Nat) : Nat → List α → List (List α)
  | 0, _ => []
  | _, [] => []
  | fuel + 1, l => l.take n :: chunks_of n fuel (l.drop n)

def chunks {α : Type} (n : Nat) (l : List α) : List (List α) :=
  chunks_of n l.length l

/-- Lines 604-622: walk csv chunks and analysis chunks positionally;
processing stops at the first csv chunk with no analysis chunk left
(the break at line 620), and each pair is truncated to the shorter of
the two chunks (min_len, lines 613-615) — List.zip performs exactly
both truncations. -/
def paired_rows (min_size : Nat) (scanned : List FileRecord)
    (analyses : List Analysis) : List Scored :=
  ((chunks 1000 scanned).zip (chunks 1000 analyses)).flatMap
    (fun p => (p.1.zip p.2).map (fun q => combine_row min_size q.1 q.2))

/-- Python dict assignment best_files[h] = row: replace the binding if
the key is present, append it otherwise. -/
def update_best : List (String × Scored) → String → Scored → List (String × Scored)
  | [], k, v => [(k, v)]
  | (k0, v0) :: t, k, v =>
    if k0 = k then (k0, v) :: t else (k0, v0) :: update_best t k v

/-- Lines 646-653: keep a row when its hash is new or its score is
strictly greater than the stored best for that hash; on a tie the
stored (earlier) row survives. -/
def dedup_step (m : List (String × Scored)) (r : Scored) : List (String × Scored) :=
  match m.lookup r.hash with
  | none => update_best m r.hash r
  | some b => if b.score < r.score then update_best m r.hash r else m

/-- The best_files dict after the whole stream of combined rows. -/
def best_files (rows : List Scored) : List (String × Scored) :=
  rows.foldl dedup_step []

/-- LibraryBuilder.deduplicate_files as a whole: from the scanned csv
stream and the analysis stream to the best_files table.  The final
sort_values / name_occurrence annotation (lines 677-691) only reorders
the surviving rows and numbers duplicate file names; the set of
winners, which the claims are about, is the value set of this table. -/
def deduplicate_files (min_size : Nat) (scanned : List FileRecord)
    (analyses : List Analysis) : List (String × Scored) :=
  best_files (paired_rows min_size scanned analyses)

/-! ## IndexBuilder (src/library_builder.py, copy_and_index, lines 814-1001) -/

/-- One row of the files table of library_index.sqlite (the INSERT at
lines 956-965).  The database stores the destination path string; here
src_path records the source file whose bytes shutil.copy2 copied to
that destination, which is row["path"] of the same unique_files row
that supplied the stored hash. -/
structure IndexRow where
  filename : String
  src_path : String
  mime_type : String
  size : Nat
  game_system : Option String
  hash : String
deriving DecidableEq, Repr

def mk_index_row (w : Scored) : IndexRow :=
  ⟨w.name, w.path, w.mime_type, w.size, w.game_system, w.hash⟩

/-- Outcome of the copy/index phase: whether a pre-existing
library_index.sqlite was removed, which source paths were copied, and
the rows inserted into the fresh files table. -/
structure CopyResult where
  db_deleted : Bool
  copied : List String
  inserted : List IndexRow
deriving DecidableEq, Repr

/-- LibraryBuilder.copy_and_index.  dest_ok aggregates the destination
guards at lines 828-874 (library_root configured, parent directory
exists and is readable/writable, makedirs succeeded, the write test
file succeeded): each failing guard returns before anything is copied.
old_db_exists / remove_ok model lines 881-887: an existing database is
removed before the copy loop, and a failed removal returns at once.
copy_ok p models the per-row copy attempt of lines 918-953 (source
still exists, is a file, and shutil.copy2 succeeded); a failing row is
logged and skipped without stopping the loop, and only copied rows are
inserted into the database. -/
def copy_and_index (dest_ok old_db_exists remove_ok : Bool)
    (copy_ok : String → Bool) (winners : List Scored) : CopyResult :=
  if winners.isEmpty then ⟨false, [], []⟩
  else if !dest_ok then ⟨false, [], []⟩
  else if old_db_exists && !remove_ok then ⟨false, [], []⟩
  else
    let kept := winners.filter (fun w => copy_ok w.path)
    ⟨old_db_exists, kept.map (fun w => w.path), kept.map mk_index_row⟩

/-! ## Orchestrator (LibraryBuilder.build, lines 710-744)

build runs scan_files, validate_and_repair_pdfs, classify_and_analyze,
deduplicate_files and copy_and_index in sequence, with no preflight
gate: preflight_check (lines 203-237) exists but is never invoked, and
destination problems surface only inside copy_and_index.  analyze is
the per-row analyze_row oracle (None = row dropped). -/

structure BuildResult where
  scanned : List FileRecord
  winners : List Scored
  copy_res : CopyResult
deriving Repr

def build (roots : List SourceRoot) (min_size : Nat)
    (analyze : FileRecord → Option Analysis)
    (dest_ok old_db_exists remove_ok : Bool)
    (copy_ok : String → Bool) : BuildResult :=
  let scanned := (scan_files_phase roots).1
  let analyses := scanned.filterMap analyze
  let winners := (deduplicate_files min_size scanned analyses).map (fun kv => kv.2)
  ⟨scanned, winners, copy_and_index dest_ok old_db_exists remove_ok copy_ok winners⟩

/-! ## Proof-support definitions

run_best is the linear reduction that dedup_step performs on the
records of one fixed hash: keep the stored record unless a strictly
greater score arrives.  It is used to characterise best_files lookups
and is proved equal to them below. -/

def run_best (b : Scored) : List Scored → Scored
  | [] => b
  | r :: t => run_best (if b.score < r.score then r else b) t

def first_best : List Scored → Option Scored
  | [] => none
  | c :: t => some (run_best c t)

/-! ## Concrete fixtures for counterexamples and witnesses -/

def good_entry : FileEntry :=
  ⟨"/s/g", "g", true, false, true, true, false, 100⟩

/-- A broken symlink: os.path.exists follows the link and reports
False, so the generator drops it at its first check without logging. -/
def broken_link_entry : FileEntry :=
  ⟨"/s/bad", "bad", false, true, false, false, false, 0⟩

/-- Two scanned files for the C1 scenario: the first is dropped during
analysis (analyze_row returned None for it, e.g. a transient read
failure while hashing), the second analyses normally. -/
def fa1 : FileRecord := ⟨"/src/a.pdf", "a.pdf", 100⟩

def fb1 : FileRecord := ⟨"/src/b.pdf", "b.pdf", 200⟩

def an_b1 : Analysis :=
  ⟨"application/pdf", "hash-b", some true, some true, none, none, none⟩

def analyze1 : FileRecord → Option Analysis :=
  fun r => if r.path = "/src/b.pdf" then some an_b1 else none

/-- The true content hash of each file on disk in the C1 scenario:
file a hashed to hash-a once readable again, file b to hash-b. -/
def true_hash1 : String → Option String :=
  fun p =>
    if p = "/src/a.pdf" then some "hash-a"
    else if p = "/src/b.pdf" then some "hash-b"
    else none

def c1_result : CopyResult :=
  copy_and_index true false true (fun _ => true)
    ((deduplicate_files 1024 [fa1, fb1] ([fa1, fb1].filterMap analyze1)).map
      (fun kv => kv.2))

/-- Equal quality scores, same hash, different sizes: the stored order
decides, not the size. -/
def r2a : Scored := ⟨"/x/a", "a", 10, "application/pdf", "h2", none, none, none, 0⟩

def r2b : Scored := ⟨"/x/b", "b", 20, "application/pdf", "h2", none, none, none, 0⟩

/-- Equal quality scores, same hash, different paths: arrival order
decides the winner. -/
def r7a : Scored := ⟨"/y/a", "a", 10, "text/plain", "h7", none, none, none, 3⟩

def r7b : Scored := ⟨"/y/b", "b", 10, "text/plain", "h7", none, none, none, 3⟩

/-- Distinct quality scores, same hash: the winner is order independent. -/
def r7c : Scored := ⟨"/y/c", "c", 10, "text/plain", "h7w", none, none, none, 0⟩

def r7d : Scored := ⟨"/y/d", "d", 2000, "application/pdf", "h7w", none, none, none, 4⟩

def d_bad : PdfDetails := ⟨false, false, some "1.4", none, none⟩

def d_good : PdfDetails := ⟨true, true, some "1.4", none, none⟩

/-- The validity oracle of the C3 witness scenario: the original fails
get_pdf_details, the repaired output passes it. -/
def details3 : String → Option PdfDetails :=
  fun p =>
    if p = "/d/f.pdf" then some d_bad
    else if p = "/d/f.pdf.repaired.pdf" then some d_good
    else none

def c8_roots : List SourceRoot := [⟨true, [good_entry]⟩]

def analyze8 : FileRecord → Option Analysis :=
  fun _ => some ⟨"text/plain", "hash-g", none, none, none, none, none⟩

/-- A full build with one readable source file and an unwritable
destination root. -/
def c8_result : BuildResult :=
  build c8_roots 1024 analyze8 false false true (fun _ => true)

def w10 : Scored := ⟨"/w/p", "p", 10, "text/plain", "h10", none, none, none, 0⟩

/-! # Theorems -/

/-! ## ResourceManager -/

theorem one_le_adjust_workers (u : Nat) : ∀ w, 1 ≤ adjust_workers u w
  | 0 => Nat.le_refl 1
  | 1 => Nat.le_refl 1
  | n + 2 => by
    rw [adjust_workers]
    split
    · exact one_le_adjust_workers u (n + 1)
    · omega

theorem adjust_workers_mul_le (u : Nat) (hu : 400 ≤ u) :
    ∀ w, 400 * adjust_workers u w ≤ u
  | 0 => by rw [adjust_workers]; omega
  | 1 => by rw [adjust_workers]; omega
  | n + 2 => by
    rw [adjust_workers]
    split
    · exact adjust_workers_mul_le u hu (n + 1)
    · omega

/-- Claim C5: get_safe_worker_count returns at least 1 for every
reported memory state (including states with available memory below
the reserved margin), and the usable-memory quantity of line 75 is
never negative. -/
theorem safe_worker_count_ge_one
    (avail total max_workers min_free : Nat) (pressure : Bool) :
    1 ≤ get_safe_worker_count avail total max_workers min_free pressure ∧
    0 ≤ usable_memory_mb avail min_free := by
  refine ⟨?_, le_max_left 0 _⟩
  unfold get_safe_worker_count
  dsimp only
  split_ifs <;> first
    | exact Nat.le_refl 1
    | exact one_le_adjust_workers _ _

/-- Claim C6 counterexample: with 600MB available (below margin plus
reserve), the computation returns one worker, and one worker times the
400MB per-worker budget exceeds available minus the 512MB OS margin,
so the claimed invariant fails in exactly the below-margin states the
claim quantifies over. -/
theorem worker_budget_counterexample :
    get_safe_worker_count 600 8000 2 512 false = 1 ∧
    ¬ ((get_safe_worker_count 600 8000 2 512 false : Int) * 400 ≤ (600 : Int) - 512) := by
  decide

/-- Claim C6 (amended): the memory-budget inequality
workers * 400 ≤ avail - 512 holds whenever the capped usable memory is
at least one worker budget (400MB); when usable memory is below that,
the worker count is floored at 1 and the inequality can fail. -/
theorem worker_budget_inequality
    (avail total max_workers min_free : Nat) (pressure : Bool)
    (h : 400 ≤ capped_usable_mb avail total min_free) :
    (get_safe_worker_count avail total max_workers min_free pressure : Int) * 400
      ≤ (avail : Int) - 512 := by
  have key : 400 * get_safe_worker_count avail total max_workers min_free pressure
      ≤ capped_usable_mb avail total min_free := by
    unfold get_safe_worker_count
    dsimp only
    split_ifs <;> first
      | omega
      | exact adjust_workers_mul_le _ (by omega) _
  have h2 : (capped_usable_mb avail total min_free : Int) ≤ (avail : Int) - 512 := by
    unfold capped_usable_mb usable_memory_mb at h ⊢
    omega
  omega

/-- Witness for worker_budget_inequality at a concrete healthy state. -/
theorem worker_budget_inequality_witness :
    (get_safe_worker_count 4000 8000 2 512 false : Int) * 400 ≤ (4000 : Int) - 512 :=
  worker_budget_inequality 4000 8000 2 512 false (by decide)

/-! ## Classifier -/

/-- Claim C4: classify is total — it returns a concrete triple for
every input, including an empty filename and an unknown MIME type —
and when no tier matches it returns the explicit default triple
(Miscellaneous, none, none). -/
theorem classify_total_with_default
    (cache : List (String × ClassTriple)) (keywords : List (String × String))
    (fuzzy : String → String → Nat) (filename : String) (parts : List String)
    (mime : String) :
    (∃ t : ClassTriple, classify cache keywords fuzzy filename parts mime = t) ∧
    (classify_by_filename cache fuzzy filename = none →
     classify_by_path keywords fuzzy parts = none →
     classify_by_mimetype mime = none →
     classify cache keywords fuzzy filename parts mime =
       ⟨some "Miscellaneous", none, none⟩) := by
  refine ⟨⟨_, rfl⟩, ?_⟩
  intro h1 h2 h3
  simp [classify, h1, h2, h3]

/-- Witness: an empty filename with an empty unknown MIME type and no
knowledge cache classifies to the default triple. -/
theorem classify_total_with_default_witness :
    classify [] [] (fun _ _ => 0) "" [] "" = ⟨some "Miscellaneous", none, none⟩ :=
  (classify_total_with_default [] [] (fun _ _ => 0) "" [] "").2
    (by decide) (by decide) (by decide)

/-! ## Deduplicator lemmas -/

theorem lookup_update_best_self (m : List (String × Scored)) (k : String) (v : Scored) :
    (update_best m k v).lookup k = some v := by
  induction m with
  | nil => simp [update_best, List.lookup]
  | cons kv t ih =>
    obtain ⟨k0, v0⟩ := kv
    by_cases h : k0 = k
    · subst h
      simp [update_best, List.lookup]
    · simp [update_best, h, List.lookup, beq_eq_false_iff_ne.mpr (Ne.symm h), ih]

theorem lookup_update_best_ne (m : List (String × Scored)) (k k1 : String) (v : Scored)
    (h : k1 ≠ k) : (update_best m k v).lookup k1 = m.lookup k1 := by
  induction m with
  | nil => simp [update_best, List.lookup, beq_eq_false_iff_ne.mpr h]
  | cons kv t ih =>
    obtain ⟨k0, v0⟩ := kv
    by_cases h0 : k0 = k
    · subst h0
      simp [update_best, List.lookup, beq_eq_false_iff_ne.mpr h]
    · by_cases h1 : k1 = k0
      · subst h1
        simp [update_best, h0, List.lookup]
      · simp [update_best, h0, List.lookup, beq_eq_false_iff_ne.mpr h1, ih]

theorem dedup_step_lookup_ne (m : List (String × Scored)) (r : Scored) (k1 : String)
    (h : k1 ≠ r.hash) : (dedup_step m r).lookup k1 = m.lookup k1 := by
  unfold dedup_step
  cases m.lookup r.hash with
  | none => exact lookup_update_best_ne m r.hash k1 r h
  | some b =>
    dsimp only
    split
    · exact lookup_update_best_ne m r.hash k1 r h
    · rfl

theorem foldl_dedup_lookup_some (l : List Scored) :
    ∀ (m : List (String × Scored)) (h : String) (b : Scored),
      m.lookup h = some b →
      (l.foldl dedup_step m).lookup h
        = some (run_best b (l.filter (fun r => r.hash == h))) := by
  induction l with
  | nil =>
    intro m h b hm
    simpa [run_best] using hm
  | cons r t ih =>
    intro m h b hm
    by_cases hr : r.hash = h
    · subst hr
      have hstep : (dedup_step m r).lookup r.hash
          = some (if b.score < r.score then r else b) := by
        by_cases hbs : b.score < r.score
        · simp [dedup_step, hm, hbs, lookup_update_best_self]
        · simp [dedup_step, hm, hbs]
      rw [List.foldl_cons, ih _ _ _ hstep]
      simp [List.filter_cons, run_best]
    · have hstep : (dedup_step m r).lookup h = some b := by
        rw [dedup_step_lookup_ne m r h (Ne.symm hr)]
        exact hm
      rw [List.foldl_cons, ih _ _ _ hstep]
      simp [List.filter_cons, beq_eq_false_iff_ne.mpr hr]

theorem foldl_dedup_lookup_none (l : List Scored) :
    ∀ (m : List (String × Scored)) (h : String),
      m.lookup h = none →
      (l.foldl dedup_step m).lookup h
        = first_best (l.filter (fun r => r.hash == h)) := by
  induction l with
  | nil =>
    intro m h hm
    simpa [first_best] using hm
  | cons r t ih =>
    intro m h hm
    by_cases hr : r.hash = h
    · subst hr
      have hstep : (dedup_step m r).lookup r.hash = some r := by
        simp [dedup_step, hm, lookup_update_best_self]
      rw [List.foldl_cons, foldl_dedup_lookup_some t _ _ _ hstep]
      simp [List.filter_cons, first_best]
    · have hstep : (dedup_step m r).lookup h = none := by
        rw [dedup_step_lookup_ne m r h (Ne.symm hr)]
        exact hm
      rw [List.foldl_cons, ih _ _ hstep]
      simp [List.filter_cons, beq_eq_false_iff_ne.mpr hr]

theorem best_files_lookup (rows : List Scored) (h : String) :
    (best_files rows).lookup h = first_best (rows.filter (fun r => r.hash == h)) :=
  foldl_dedup_lookup_none rows [] h rfl

theorem run_best_eq_or_mem (b : Scored) (t : List Scored) :
    run_best b t = b ∨ run_best b t ∈ t := by
  induction t generalizing b with
  | nil => exact Or.inl rfl
  | cons r t2 ih =>
    rw [run_best]
    rcases ih (if b.score < r.score then r else b) with h | h
    · by_cases hbs : b.score < r.score
      · right
        rw [h, if_pos hbs]
        exact List.mem_cons_self r t2
      · left
        rw [h, if_neg hbs]
    · right
      exact List.mem_cons_of_mem r h

theorem run_best_mem (b : Scored) (t : List Scored) : run_best b t ∈ b :: t := by
  rcases run_best_eq_or_mem b t with h | h
  · rw [h]
    exact List.mem_cons_self b t
  · exact List.mem_cons_of_mem b h

theorem run_best_score_ge (b : Scored) (t : List Scored) :
    ∀ r ∈ b :: t, r.score ≤ (run_best b t).score := by
  induction t generalizing b with
  | nil =>
    intro r hr
    rw [List.mem_singleton] at hr
    rw [hr, run_best]
  | cons x t2 ih =>
    intro r hr
    rw [run_best]
    have hb : b.score ≤ (if b.score < x.score then x else b).score := by
      split <;> omega
    have hx : x.score ≤ (if b.score < x.score then x else b).score := by
      split <;> omega
    have htop := ih (if b.score < x.score then x else b)
        (if b.score < x.score then x else b)
        (List.mem_cons_self _ t2)
    rcases List.mem_cons.mp hr with h1 | h2
    · rw [h1]
      exact le_trans hb htop
    · rcases List.mem_cons.mp h2 with h3 | h4
      · rw [h3]
        exact le_trans hx htop
      · exact ih (if b.score < x.score then x else b) r
          (List.mem_cons_of_mem _ h4)

theorem run_best_first_max (b : Scored) (t : List Scored) :
    ∃ pre post, b :: t = pre ++ (run_best b t) :: post ∧
      ∀ r ∈ pre, r.score < (run_best b t).score := by
  induction t generalizing b with
  | nil => exact ⟨[], [], by simp [run_best], by simp⟩
  | cons x t2 ih =>
    by_cases hbs : b.score < x.score
    · obtain ⟨pre, post, he, hlt⟩ := ih x
      have hrw : run_best b (x :: t2) = run_best x t2 := by
        rw [run_best, if_pos hbs]
      refine ⟨b :: pre, post, ?_, ?_⟩
      · rw [hrw, List.cons_append, ← he]
      · intro r hr
        rw [hrw]
        rcases List.mem_cons.mp hr with h1 | h2
        · rw [h1]
          exact lt_of_lt_of_le hbs
            (run_best_score_ge x t2 x (List.mem_cons_self x t2))
        · exact hlt r h2
    · obtain ⟨pre, post, he, hlt⟩ := ih b
      have hrw : run_best b (x :: t2) = run_best b t2 := by
        rw [run_best, if_neg hbs]
      cases pre with
      | nil =>
        rw [List.nil_append] at he
        injection he with he1 he2
        refine ⟨[], x :: t2, ?_, by simp⟩
        rw [hrw, ← he1, List.nil_append]
      | cons p0 pre2 =>
        rw [List.cons_append] at he
        injection he with he1 he2
        refine ⟨b :: x :: pre2, post, ?_, ?_⟩
        · rw [hrw]
          simp only [List.cons_append]
          rw [← he2]
        · intro r hr
          rw [hrw]
          have hbw : b.score < (run_best b t2).score := by
            have hp := hlt p0 (List.mem_cons_self p0 pre2)
            rw [← he1] at hp
            exact hp
          rcases List.mem_cons.mp hr with e1 | hr2
          · rw [e1]
            exact hbw
          · rcases List.mem_cons.mp hr2 with e2 | hr3
            · rw [e2]
              exact lt_of_le_of_lt (Nat.le_of_not_lt hbs) hbw
            · exact hlt r (List.mem_cons_of_mem p0 hr3)

theorem best_files_winner_mem_max (rows : List Scored) (h : String) (w : Scored)
    (hw : (best_files rows).lookup h = some w) :
    w ∈ rows.filter (fun r => r.hash == h) ∧
    ∀ s ∈ rows.filter (fun r => r.hash == h), s.score ≤ w.score := by
  have hlk := best_files_lookup rows h
  rw [hw] at hlk
  cases hf : rows.filter (fun r => r.hash == h) with
  | nil =>
    rw [hf] at hlk
    simp [first_best] at hlk
  | cons c t =>
    rw [hf] at hlk
    simp only [first_best, Option.some.injEq] at hlk
    subst hlk
    exact ⟨run_best_mem c t, run_best_score_ge c t⟩

theorem lookup_none_not_mem_keys (m : List (String × Scored)) (k : String)
    (h : m.lookup k = none) : k ∉ m.map Prod.fst := by
  induction m with
  | nil => simp
  | cons kv t ih =>
    obtain ⟨k0, v0⟩ := kv
    by_cases h0 : k = k0
    · subst h0
      simp [List.lookup] at h
    · simp only [List.lookup, beq_eq_false_iff_ne.mpr h0] at h
      simp [h0, ih h]

theorem lookup_some_mem_keys (m : List (String × Scored)) (k : String) (v : Scored)
    (h : m.lookup k = some v) : k ∈ m.map Prod.fst := by
  induction m with
  | nil => simp [List.lookup] at h
  | cons kv t ih =>
    obtain ⟨k0, v0⟩ := kv
    by_cases h0 : k = k0
    · simp [h0]
    · simp only [List.lookup, beq_eq_false_iff_ne.mpr h0] at h
      simp [ih h]

theorem update_best_keys (m : List (String × Scored)) (k : String) (v : Scored) :
    (update_best m k v).map Prod.fst
      = if k ∈ m.map Prod.fst then m.map Prod.fst else m.map Prod.fst ++ [k] := by
  induction m with
  | nil => simp [update_best]
  | cons kv t ih =>
    obtain ⟨k0, v0⟩ := kv
    by_cases h0 : k0 = k
    · subst h0
      simp [update_best]
    · simp only [update_best, if_neg h0, List.map_cons]
      rw [ih]
      by_cases hm : k ∈ t.map Prod.fst
      · simp [hm, List.mem_cons, Ne.symm h0]
      · simp [hm, List.mem_cons, Ne.symm h0]

theorem dedup_step_keys_nodup (m : List (String × Scored)) (r : Scored)
    (h : (m.map Prod.fst).Nodup) : ((dedup_step m r).map Prod.fst).Nodup := by
  unfold dedup_step
  cases hl : m.lookup r.hash with
  | none =>
    have hnm := lookup_none_not_mem_keys m r.hash hl
    rw [update_best_keys, if_neg hnm]
    simp [List.nodup_append, h, hnm]
  | some b =>
    dsimp only
    split
    · rw [update_best_keys, if_pos (lookup_some_mem_keys m r.hash b hl)]
      exact h
    · exact h

theorem best_files_keys_nodup (rows : List Scored) :
    ((best_files rows).map Prod.fst).Nodup := by
  have main : ∀ (l : List Scored) (m : List (String × Scored)),
      (m.map Prod.fst).Nodup → ((l.foldl dedup_step m).map Prod.fst).Nodup := by
    intro l
    induction l with
    | nil => intro m hm; exact hm
    | cons r t ih =>
      intro m hm
      exact ih _ (dedup_step_keys_nodup m r hm)
  exact main rows [] (by simp)

theorem best_files_countP_one (rows : List Scored) (h : String) (w : Scored)
    (hw : (best_files rows).lookup h = some w) :
    (best_files rows).countP (fun kv => kv.1 == h) = 1 := by
  have hmem : h ∈ (best_files rows).map Prod.fst := lookup_some_mem_keys _ _ _ hw
  have hnd := best_files_keys_nodup rows
  have hc : ((best_files rows).map Prod.fst).count h = 1 :=
    List.count_eq_one_of_mem hnd hmem
  have hmap : ((best_files rows).map Prod.fst).countP (fun k => k == h)
      = (best_files rows).countP (fun kv => kv.1 == h) := List.countP_map _ _ _
  rw [← hmap]
  exact hc

/-! ## Deduplicator claims -/

/-- Claim C2 counterexample: two admissions with the same hash and
equal quality scores, where the second has the larger size; the code
retains the first-processed record, so ties are not broken by larger
size as claimed. -/
theorem dedup_tiebreak_counterexample :
    (best_files [r2a, r2b]).lookup "h2" = some r2a ∧
    r2a.score = r2b.score ∧ r2a.size < r2b.size ∧ r2a ≠ r2b := by
  decide

/-- Claim C2 (amended): the deduplicator keeps exactly one record per
content hash, its quality score is maximal among the records sharing
that hash, and on a score tie the record that was processed first
(earlier discovery order) survives; size and path are not consulted. -/
theorem dedup_winner_spec (rows : List Scored) (h : String) (w : Scored)
    (hw : (best_files rows).lookup h = some w) :
    w.hash = h ∧ w ∈ rows ∧
    (∀ r ∈ rows, r.hash = h → r.score ≤ w.score) ∧
    (∃ pre post, rows.filter (fun r => r.hash == h) = pre ++ w :: post ∧
      ∀ r ∈ pre, r.score < w.score) ∧
    (best_files rows).countP (fun kv => kv.1 == h) = 1 := by
  obtain ⟨hmem, hmax⟩ := best_files_winner_mem_max rows h w hw
  refine ⟨?_, ?_, ?_, ?_, best_files_countP_one rows h w hw⟩
  · have := List.of_mem_filter hmem
    exact eq_of_beq this
  · exact List.mem_of_mem_filter hmem
  · intro r hr hrh
    exact hmax r (List.mem_filter.mpr ⟨hr, by simp [hrh]⟩)
  · have hlk := best_files_lookup rows h
    rw [hw] at hlk
    cases hf : rows.filter (fun r => r.hash == h) with
    | nil =>
      rw [hf] at hlk
      simp [first_best] at hlk
    | cons c t =>
      rw [hf] at hlk
      simp only [first_best, Option.some.injEq] at hlk
      obtain ⟨pre, post, he, hlt⟩ := run_best_first_max c t
      subst hlk
      exact ⟨pre, post, he, hlt⟩

/-- Witness for dedup_winner_spec: in a two-record tie the first
record is the retained winner. -/
theorem dedup_winner_spec_witness :
    r2a.hash = "h2" ∧ r2a ∈ ([r2a, r2b] : List Scored) := by
  have h := dedup_winner_spec [r2a, r2b] "h2" r2a (by decide)
  exact ⟨h.1, h.2.1⟩

/-- Claim C7 counterexample: two tied admissions for one hash; the two
arrival orders are permutations of each other yet produce different
final winners, so the final winner is not order independent. -/
theorem dedup_order_counterexample :
    (best_files [r7a, r7b]).lookup "h7" = some r7a ∧
    (best_files [r7b, r7a]).lookup "h7" = some r7b ∧
    r7a ≠ r7b ∧ ([r7a, r7b] : List Scored).Perm [r7b, r7a] :=
  ⟨by decide, by decide, by decide, List.Perm.swap r7b r7a []⟩

/-- Claim C7 (amended): the final winner for a hash is invariant under
permutation of the admission order whenever the maximal quality score
for that hash is attained by a unique record; with tied maximal
records the winner is the first one processed and depends on order. -/
theorem dedup_winner_order_independent
    (rows rows2 : List Scored) (h : String)
    (hp : rows.Perm rows2) (w w2 : Scored)
    (_hw : (best_files rows).lookup h = some w)
    (hw2 : (best_files rows2).lookup h = some w2)
    (huniq : ∀ r ∈ rows.filter (fun s => s.hash == h),
      (∀ s ∈ rows.filter (fun s => s.hash == h), s.score ≤ r.score) → r = w) :
    w2 = w := by
  obtain ⟨hm2, hmax2⟩ := best_files_winner_mem_max rows2 h w2 hw2
  have hpf : (rows.filter (fun s => s.hash == h)).Perm
      (rows2.filter (fun s => s.hash == h)) := hp.filter _
  refine huniq w2 (hpf.mem_iff.mpr hm2) ?_
  intro s hs
  exact hmax2 s (hpf.mem_iff.mp hs)

/-- Witness for dedup_winner_order_independent: with a unique maximal
record, both arrival orders elect it. -/
theorem dedup_winner_order_independent_witness :
    (best_files [r7d, r7c]).lookup "h7w" = some r7d ∧ r7d = r7d :=
  ⟨by decide,
   dedup_winner_order_independent [r7c, r7d] [r7d, r7c] "h7w"
     (List.Perm.swap r7d r7c []) r7d r7d (by decide) (by decide) (by decide)⟩

/-- Claim C1 (code bug): when a scanned row is dropped during analysis,
deduplicate_files pairs the csv stream and the analysis stream
positionally and truncates to the shorter chunk, so the surviving
record carries the path/name/size of file a together with the content
hash of file b; the persisted index row then records hash-b for a copy
of the bytes of /src/a.pdf, whose true hash is hash-a. -/
theorem dedup_misaligned_hash_bug :
    c1_result.inserted
      = [⟨"a.pdf", "/src/a.pdf", "application/pdf", 100, none, "hash-b"⟩] ∧
    true_hash1 "/src/a.pdf" = some "hash-a" ∧
    true_hash1 "/src/b.pdf" = some "hash-b" ∧
    ¬ (∀ row ∈ c1_result.inserted, true_hash1 row.src_path = some row.hash) := by
  decide

/-! ## PDF repair acceptance -/

/-- Claim C3: a result of validate_and_repair_pdf is marked valid only
if the path it returns passed the very same get_pdf_details check
(the details oracle), and whenever the returned path is not the
original one it is the repaired output, returned valid; in particular
an accepted repair implies the repaired file re-passed the validity
check applied to originals. -/
theorem repair_accept_implies_revalidated
    (is_apple_double : Bool) (details : String → Option PdfDetails)
    (header_is_pdf repair_run : Option Bool) (file_path : String) :
    ((validate_and_repair_pdf is_apple_double details header_is_pdf repair_run
        file_path).is_valid = true →
      ∃ d, details (validate_and_repair_pdf is_apple_double details header_is_pdf
        repair_run file_path).path = some d ∧ d.is_valid = true) ∧
    ((validate_and_repair_pdf is_apple_double details header_is_pdf repair_run
        file_path).path ≠ file_path →
      (validate_and_repair_pdf is_apple_double details header_is_pdf repair_run
        file_path).is_valid = true ∧
      (validate_and_repair_pdf is_apple_double details header_is_pdf repair_run
        file_path).path = file_path ++ ".repaired.pdf") := by
  cases is_apple_double with
  | true => simp [validate_and_repair_pdf]
  | false =>
    cases hd : details file_path with
    | none => simp [validate_and_repair_pdf, hd]
    | some d =>
      cases hv : d.is_valid with
      | true =>
        refine ⟨fun _ => ?_, fun hne => ?_⟩
        · exact ⟨d, by simp [validate_and_repair_pdf, hd, hv], hv⟩
        · exact absurd (by simp [validate_and_repair_pdf, hd, hv]) hne
      | false =>
        cases hh : header_is_pdf with
        | none => simp [validate_and_repair_pdf, hd, hv, hh]
        | some hb =>
          cases hb with
          | false => simp [validate_and_repair_pdf, hd, hv, hh]
          | true =>
            cases hr : repair_run with
            | none => simp [validate_and_repair_pdf, hd, hv, hh, hr]
            | some rb =>
              cases rb with
              | false => simp [validate_and_repair_pdf, hd, hv, hh, hr]
              | true =>
                cases hrd : details (file_path ++ ".repaired.pdf") with
                | none => simp [validate_and_repair_pdf, hd, hv, hh, hr, hrd]
                | some rd =>
                  cases hvr : rd.is_valid with
                  | false => simp [validate_and_repair_pdf, hd, hv, hh, hr, hrd, hvr]
                  | true =>
                    refine ⟨fun _ => ?_, fun _ => ?_⟩
                    · exact ⟨rd,
                        by simp [validate_and_repair_pdf, hd, hv, hh, hr, hrd, hvr],
                        hvr⟩
                    · constructor <;>
                        simp [validate_and_repair_pdf, hd, hv, hh, hr, hrd, hvr]

/-- Witness for repair_accept_implies_revalidated: an invalid original
whose repaired output re-validates; the accepted result path carries
validated details. -/
theorem repair_accept_implies_revalidated_witness :
    ∃ d, details3 ((validate_and_repair_pdf false details3 (some true) (some true)
      "/d/f.pdf").path) = some d ∧ d.is_valid = true :=
  (repair_accept_implies_revalidated false details3 (some true) (some true)
    "/d/f.pdf").1 (by decide)

/-! ## Scanner claims -/

/-- Claim C9 counterexample: a scan stream containing a broken symlink
followed by a regular file: the scan continues (the regular file is
emitted) and no record is emitted for the link, but the number of skip
log entries for it is zero, not one — the generator skips broken
symlinks silently. -/
theorem scan_silent_skip_counterexample :
    file_generator [broken_link_entry, good_entry] = ([⟨"/s/g", "g", 100⟩], []) ∧
    (file_generator [broken_link_entry, good_entry]).2.length = 0 := by
  decide

/-- Claim C9 (amended): a broken symlink does not abort the scan and
produces no FileRecord, but it is skipped silently: the generator
output over any stream containing it equals the output with the entry
removed, so no skip entry is logged for it. -/
theorem scan_skips_broken_symlink (es1 es2 : List FileEntry) (b : FileEntry)
    (_h1 : b.is_link = true) (h2 : b.path_exists = false) :
    file_generator (es1 ++ b :: es2) = file_generator (es1 ++ es2) := by
  have hb : scan_entry b = (none, []) := by
    simp [scan_entry, h2]
  simp [file_generator, List.filterMap_append, List.map_append, hb]

/-- Witness for scan_skips_broken_symlink at the concrete broken link. -/
theorem scan_skips_broken_symlink_witness :
    file_generator [broken_link_entry] = file_generator [] :=
  scan_skips_broken_symlink [] [] broken_link_entry rfl rfl

/-! ## Orchestrator and IndexBuilder claims -/

/-- Claim C8 counterexample: a build over one readable source file and
an unwritable destination root scans (and analyses) the file before
the destination failure is noticed inside copy_and_index, so the
pipeline does not abort before processing begins; only the copy phase
is empty. -/
theorem late_config_error_counterexample :
    c8_result.scanned = [⟨"/s/g", "g", 100⟩] ∧
    c8_result.scanned ≠ [] ∧
    c8_result.copy_res.copied = [] := by
  decide

/-- Claim C8 (amended): destination-root configuration errors are
detected late, inside copy_and_index: with an unwritable or missing
destination the earlier phases still run, and the copy/index phase
then returns without copying or indexing anything; invalid source
roots are skipped with a warning rather than aborting. -/
theorem unwritable_dest_copies_nothing (roots : List SourceRoot) (min_size : Nat)
    (analyze : FileRecord → Option Analysis) (old_db_exists remove_ok : Bool)
    (copy_ok : String → Bool) :
    (build roots min_size analyze false old_db_exists remove_ok copy_ok).copy_res.copied
        = [] ∧
    (build roots min_size analyze false old_db_exists remove_ok copy_ok).copy_res.inserted
        = [] := by
  unfold build copy_and_index
  dsimp only
  split <;> simp

/-- Claim C10: on every run of the copy/index phase, if the removal of
a pre-existing library_index.sqlite fails the phase copies and inserts
nothing; if anything was copied then a pre-existing database was
deleted first; and every row of the fresh index originates from a
winner of the current run, so no index record of a previous run
survives into the new output. -/
theorem copy_and_index_fresh_rebuild (dest_ok old_db_exists remove_ok : Bool)
    (copy_ok : String → Bool) (winners : List Scored) :
    ((old_db_exists = true ∧ remove_ok = false) →
      (copy_and_index dest_ok old_db_exists remove_ok copy_ok winners).copied = [] ∧
      (copy_and_index dest_ok old_db_exists remove_ok copy_ok winners).inserted = []) ∧
    ((copy_and_index dest_ok old_db_exists remove_ok copy_ok winners).copied ≠ [] →
      old_db_exists = true →
      (copy_and_index dest_ok old_db_exists remove_ok copy_ok winners).db_deleted
        = true) ∧
    (∀ row ∈ (copy_and_index dest_ok old_db_exists remove_ok copy_ok winners).inserted,
      ∃ w, w ∈ winners ∧ row = mk_index_row w) := by
  unfold copy_and_index
  split_ifs with h1 h2 h3
  · simp
  · simp
  · refine ⟨fun _ => ⟨rfl, rfl⟩, fun hc _ => absurd rfl hc, by simp⟩
  · refine ⟨fun hc => absurd (by simp [hc.1, hc.2]) h3, fun _ hodb => hodb, ?_⟩
    intro row hrow
    simp only [List.mem_map] at hrow
    obtain ⟨w, hwk, hwe⟩ := hrow
    exact ⟨w, List.mem_of_mem_filter hwk, hwe.symm⟩

/-- Witness for copy_and_index_fresh_rebuild: a failing database
removal stops the phase with nothing copied and nothing inserted. -/
theorem copy_and_index_fresh_rebuild_witness :
    (copy_and_index true true false (fun _ => true) [w10]).copied = [] ∧
    (copy_and_index true true false (fun _ => true) [w10]).inserted = [] :=
  (copy_and_index_fresh_rebuild true true false (fun _ => true) [w10]).1 ⟨rfl, rfl⟩

end FileLibrarian
